import Mathlib

/-!
Verification development for the Huescale CIECAM02 color-appearance core.

This file gives a shallow embedding of the repository's CIECAM02 module
(viewing-condition derivation, forward and inverse appearance transforms,
eccentricity lookup) and of the contrast-compensation orchestration built
on top of it, together with theorems settling the specification claims.

Modelling conventions, fixed once for the whole file:

* A JavaScript number is modelled by the type JsNum := Option Real.
  A value some x stands for the finite double with exact real value x;
  none stands for a non-finite result (NaN or an infinity).  The embedding
  works with exact real arithmetic: rounding is not modelled, but the
  points at which JavaScript produces a non-finite value from finite
  operands are modelled faithfully:
  - division by zero yields none (JS: Infinity or NaN);
  - Math.pow with negative base and non-integer exponent yields none
    (JS: NaN); Math.pow(0, y) is 0 for y > 0, 1 for y = 0, and none for
    y < 0 (JS: Infinity); Math.pow(x, plus-minus 0) is 1 for every x,
    including NaN, per the ECMAScript specification;
  - Math.sqrt of a negative number yields none (JS: NaN);
  - every arithmetic operation with a non-finite operand yields none.
  The collapse of NaN and the infinities into a single none loses the
  distinction JS makes between them (for example finite/Infinity = 0 is
  finite in JS but none here).  No theorem below depends on a path where
  an infinity is later collapsed back to a finite value; the theorems
  that mention non-finite values only distinguish finite from non-finite,
  for which the collapse is sound on every path they traverse.
  Because rounding is not modelled, an exact-real cancellation to zero
  does not by itself establish a zero in the program's double-precision
  run.  Every concrete input used by a counterexample below is therefore
  chosen so that the decisive zero or NaN also arises bit-exactly in
  IEEE double precision: NaN inputs that merely propagate, products with
  an operand that is exactly zero (pow(Fl, 0.25) with Fl = 0), or a sum
  of two products that round to the identical double
  (0.4296 * 203 and 0.1624 * 537, both 87.2088).  The remaining exact
  cancellations (such as the achromatic response at black being exactly
  0.305 - 0.305) appear only in proofs of approximate statements whose
  tolerance absorbs the rounding residue, never as the source of a
  claimed non-finite value.

* The source wraps each computation in Effect.try whose catch clause fires
  only when the thunk throws.  The thunks consist of JS arithmetic,
  Math.* calls, array reads and the effect Array combinators, none of
  which throw for number arguments; JS arithmetic signals domain errors
  by producing NaN/Infinity values, not exceptions.  The embedded
  E-variants therefore always return Except.ok; this is a statement about
  the source's control flow, not a simplification.

* Real comparisons inside the code (branch conditions) are modelled with
  classical decidability; where a branch can receive a non-finite value,
  the match on none is arranged to agree with the JS behaviour that every
  comparison with NaN is false (commented at each site).
-/

open scoped Classical

noncomputable section

-- ===========================================================================
-- JavaScript number semantics
-- ===========================================================================

/-- A JavaScript number: a finite double represented by its exact real value,
or none for a non-finite (NaN / infinite) result. -/
abbrev JsNum : Type := Option ℝ

/-- JS unary minus. -/
def jneg : JsNum → JsNum
  | some a => some (-a)
  | none => none

/-- JS addition: non-finite operands propagate (Infinity + -Infinity is NaN,
so every non-finite case is again non-finite). -/
def jadd : JsNum → JsNum → JsNum
  | some a, some b => some (a + b)
  | _, _ => none

/-- JS subtraction. -/
def jsub : JsNum → JsNum → JsNum
  | some a, some b => some (a - b)
  | _, _ => none

/-- JS multiplication: 0 * NaN and 0 * Infinity are NaN, so a non-finite
operand always gives a non-finite product. -/
def jmul : JsNum → JsNum → JsNum
  | some a, some b => some (a * b)
  | _, _ => none

/-- JS division: x / 0 is an infinity (or NaN for 0 / 0), hence none. -/
def jdiv : JsNum → JsNum → JsNum
  | some a, some b => if b = 0 then none else some (a / b)
  | _, _ => none

/-- Math.max; Math.max(NaN, x) is NaN. -/
def jmax : JsNum → JsNum → JsNum
  | some a, some b => some (max a b)
  | _, _ => none

/-- Math.min. -/
def jmin : JsNum → JsNum → JsNum
  | some a, some b => some (min a b)
  | _, _ => none

/-- Math.sqrt: negative argument gives NaN. -/
def jsqrt : JsNum → JsNum
  | some a => if a < 0 then none else some (Real.sqrt a)
  | none => none

/-- Math.exp: total on finite arguments (overflow to Infinity is a rounding
artefact outside this exact-real model). -/
def jexp : JsNum → JsNum
  | some a => some (Real.exp a)
  | none => none

/-- Math.cos. -/
def jcos : JsNum → JsNum
  | some a => some (Real.cos a)
  | none => none

/-- Math.sin. -/
def jsin : JsNum → JsNum
  | some a => some (Real.sin a)
  | none => none

/-- Math.atan2 on real arguments, with the ECMAScript conventions
(range (-pi, pi], atan2(0, 0) = 0): the argument of the complex number
x + y i. -/
def atan2 (y x : ℝ) : ℝ := Complex.arg ⟨x, y⟩

/-- Math.atan2 lifted to JS numbers. -/
def jatan2 : JsNum → JsNum → JsNum
  | some y, some x => some (atan2 y x)
  | _, _ => none

/-- Math.pow with ECMAScript semantics on the cases reachable from finite
operands: pow(x, plus-minus 0) = 1 for every x including NaN; a NaN operand
otherwise yields NaN; pow(0, y) is 0 for y > 0 and Infinity for y < 0;
a positive base uses the real power; a negative base yields a finite value
for integer exponents and NaN otherwise.  For a negative base and integer
exponent, Real.rpow agrees with the integer power, so the same expression
x ^ y is used in both finite branches. -/
def jpow (x y : JsNum) : JsNum :=
  match y with
  | none => none
  | some yv =>
    if yv = 0 then some 1
    else
      match x with
      | none => none
      | some xv =>
        if xv = 0 then (if 0 < yv then some 0 else none)
        else if 0 < xv then some (xv ^ yv)
        else if ∃ n : ℤ, (n : ℝ) = yv then some (xv ^ yv)
        else none

end

noncomputable section

-- ===========================================================================
-- CIECAM02 module: errors, types, constants  (src ciecam02, part_002)
-- ===========================================================================

/-- Error when CIECAM02 model computation fails (class CIECAM02Error).  The
optional cause field is omitted: no theorem below inspects it. -/
structure CIECAM02Error where
  message : String

/-- A 3x3 matrix of finite constants (type Matrix3x3).  All four matrices in
the source are literal constants, hence finite reals. -/
structure Matrix3x3 where
  m00 : ℝ
  m01 : ℝ
  m02 : ℝ
  m10 : ℝ
  m11 : ℝ
  m12 : ℝ
  m20 : ℝ
  m21 : ℝ
  m22 : ℝ

/-- A 3-component vector of JS numbers (type Vec3). -/
structure Vec3 where
  v0 : JsNum
  v1 : JsNum
  v2 : JsNum

/-- CIE XYZ tristimulus values (interface XYZ). -/
structure XYZ where
  X : JsNum
  Y : JsNum
  Z : JsNum

/-- Surround condition parameters (interface SurroundParameters).  Only the
three literal presets are ever constructed by the source, so the fields are
finite reals. -/
structure SurroundParameters where
  F : ℝ
  c : ℝ
  Nc : ℝ

/-- Precomputed viewing condition parameters (interface ViewingConditions). -/
structure ViewingConditions where
  La : JsNum
  Yb : JsNum
  surround : SurroundParameters
  k : JsNum
  Fl : JsNum
  n : JsNum
  Nbb : JsNum
  Ncb : JsNum
  z : JsNum
  D : JsNum
  Aw : JsNum
  adaptedWhiteRgc : Vec3

/-- CIECAM02 appearance correlates (interface AppearanceCorrelates). -/
structure AppearanceCorrelates where
  J : JsNum
  C : JsNum
  h : JsNum
  M : JsNum
  s : JsNum
  Q : JsNum

/-- The J, C, h sub-record consumed by the inverse transform
(Pick of AppearanceCorrelates over J, C, h). -/
structure CorrelatesJCh where
  J : JsNum
  C : JsNum
  h : JsNum

/-- Surround condition label (type SurroundCondition). -/
inductive SurroundCondition where
  | average
  | dim
  | dark

/-- CAT02 sharpened cone response matrix (M_CAT02). -/
def M_CAT02 : Matrix3x3 :=
  ⟨0.7328, 0.4296, -0.1624,
   -0.7036, 1.6975, 0.0061,
   0.0030, 0.0136, 0.9834⟩

/-- Inverse of M_CAT02 (M_CAT02_INV). -/
def M_CAT02_INV : Matrix3x3 :=
  ⟨1.096124, -0.278869, 0.182745,
   0.454369, 0.473533, 0.072098,
   -0.009628, -0.005698, 1.015326⟩

/-- Hunt-Pointer-Estevez matrix (M_HPE). -/
def M_HPE : Matrix3x3 :=
  ⟨0.38971, 0.68898, -0.07868,
   -0.22981, 1.18340, 0.04641,
   0.00000, 0.00000, 1.00000⟩

/-- Inverse of the Hunt-Pointer-Estevez matrix (M_HPE_INV). -/
def M_HPE_INV : Matrix3x3 :=
  ⟨1.910197, -1.112124, 0.201908,
   0.370950, 0.629054, -0.000008,
   0.000000, 0.000000, 1.000000⟩

/-- Surround conditions for average surround (SURROUND_AVERAGE). -/
def SURROUND_AVERAGE : SurroundParameters := ⟨1.0, 0.69, 1.0⟩

/-- Surround conditions for dim surround (SURROUND_DIM). -/
def SURROUND_DIM : SurroundParameters := ⟨0.9, 0.59, 0.95⟩

/-- Surround conditions for dark surround (SURROUND_DARK). -/
def SURROUND_DARK : SurroundParameters := ⟨0.8, 0.525, 0.8⟩

/-- D65 standard illuminant white point in XYZ (D65_WHITE_POINT). -/
def D65_WHITE_POINT : XYZ := ⟨some 95.047, some 100.0, some 108.883⟩

/-- Degrees-to-radians conversion factor (DEG_TO_RAD). -/
def DEG_TO_RAD : ℝ := Real.pi / 180

/-- Radians-to-degrees conversion factor (RAD_TO_DEG). -/
def RAD_TO_DEG : ℝ := 180 / Real.pi

/-- Exponent for the nonlinear cone response compression
(CONE_RESPONSE_EXPONENT). -/
def CONE_RESPONSE_EXPONENT : ℝ := 0.42

/-- Scaling factor in the nonlinear cone response function
(CONE_RESPONSE_SCALE). -/
def CONE_RESPONSE_SCALE : ℝ := 400

/-- Offset in the nonlinear cone response denominator
(CONE_RESPONSE_OFFSET). -/
def CONE_RESPONSE_OFFSET : ℝ := 27.13

/-- Additive constant in the post-adaptation response
(POST_ADAPTATION_OFFSET). -/
def POST_ADAPTATION_OFFSET : ℝ := 0.1

/-- Eccentricity factor table hue angles in degrees
(ECCENTRICITY_HUE_ANGLES).  TypeScript indexing past the end of the array
would produce undefined; claim C10 establishes that every access performed
by eccentricityFactor stays inside the five entries, so the total getD
access used below is never exercised at its default. -/
def ECCENTRICITY_HUE_ANGLES : List ℝ := [20.14, 90.00, 164.25, 237.53, 380.14]

/-- Eccentricity factor table values (ECCENTRICITY_VALUES). -/
def ECCENTRICITY_VALUES : List ℝ := [0.8, 0.7, 1.0, 1.2, 0.8]

/-- Eccentricity factor table H values (ECCENTRICITY_H_VALUES). -/
def ECCENTRICITY_H_VALUES : List ℝ := [0.0, 100.0, 200.0, 300.0, 400.0]

-- ===========================================================================
-- CIECAM02 module: helpers
-- ===========================================================================

/-- Multiply a 3x3 matrix by a 3-component vector (multiplyMatrixVec).  The
JS expression m[i][0]*v[0] + m[i][1]*v[1] + m[i][2]*v[2] associates to the
left. -/
def multiplyMatrixVec (m : Matrix3x3) (v : Vec3) : Vec3 :=
  ⟨jadd (jadd (jmul (some m.m00) v.v0) (jmul (some m.m01) v.v1)) (jmul (some m.m02) v.v2),
   jadd (jadd (jmul (some m.m10) v.v0) (jmul (some m.m11) v.v1)) (jmul (some m.m12) v.v2),
   jadd (jadd (jmul (some m.m20) v.v0) (jmul (some m.m21) v.v1)) (jmul (some m.m22) v.v2)⟩

/-- Forward nonlinear adaptation (nonlinearAdaptation).  A NaN component
falls through both JS branches to a NaN result (sign becomes -1 because the
comparison with NaN is false, and the subsequent arithmetic on NaN keeps
NaN), so matching none to none is faithful. -/
def nonlinearAdaptation : JsNum → JsNum → JsNum
  | none, _ => none
  | some cv, Fl =>
    let sign : ℝ := if 0 ≤ cv then 1 else -1
    let abs : ℝ := |cv|
    let p := jpow (jdiv (jmul Fl (some abs)) (some 100)) (some CONE_RESPONSE_EXPONENT)
    jadd (jdiv (jmul (some sign) (jmul (some CONE_RESPONSE_SCALE) p))
      (jadd p (some CONE_RESPONSE_OFFSET))) (some POST_ADAPTATION_OFFSET)

/-- Inverse nonlinear adaptation (inverseNonlinearAdaptation).  As above,
a NaN input propagates to a NaN output in JS. -/
def inverseNonlinearAdaptation : JsNum → JsNum → JsNum
  | none, _ => none
  | some av, Fl =>
    let val : ℝ := av - POST_ADAPTATION_OFFSET
    let sign : ℝ := if 0 ≤ val then 1 else -1
    let abs : ℝ := |val|
    let p := jdiv (some (CONE_RESPONSE_OFFSET * abs)) (some (CONE_RESPONSE_SCALE - abs))
    jmul (jmul (some sign) (jdiv (some 100) Fl)) (jpow p (some (1 / CONE_RESPONSE_EXPONENT)))

/-- Last index of a list element satisfying p, mirroring the effect library
Array.findLastIndex used by the source (the returned number is the index
within the array, and the source applies it to the array [0, 1, 2, 3]
produced by Arr.range(0, 3), which is inclusive at both ends). -/
def findLastIdx (p : ℕ → Prop) : List ℕ → Option ℕ
  | [] => none
  | x :: xs =>
    match findLastIdx p xs with
    | some j => some (j + 1)
    | none => if p x then some 0 else none

/-- The hue wrap of the eccentricity lookup: hues below the first table
angle are shifted by a full turn (hp = h < angles[0] ? h + 360 : h). -/
def wrapHue (hv : ℝ) : ℝ :=
  if hv < ECCENTRICITY_HUE_ANGLES.getD 0 0 then hv + 360 else hv

/-- The segment selection of the eccentricity lookup: the last index i in
[0, 1, 2, 3] with angles[i] <= hp, defaulting to segment 0 when the
findLastIndex option is none (source: segmentIndex tag Some ? value : 0). -/
def segmentIndexOf (hp : ℝ) : ℕ :=
  (findLastIdx (fun i => ECCENTRICITY_HUE_ANGLES.getD i 0 ≤ hp) [0, 1, 2, 3]).getD 0

/-- Compute the eccentricity factor et for a given hue angle
(eccentricityFactor).  A NaN hue makes every comparison false, selects
segment 0 by the default, and produces NaN through the arithmetic, so the
none input maps to none.  The divisions inside the unguarded branch use the
total real division of Lean; every theorem below that evaluates this branch
first proves its divisors nonzero, so the Lean and JS values agree there. -/
def eccentricityFactor : JsNum → JsNum
  | none => none
  | some hv =>
    let hp : ℝ := wrapHue hv
    let i := segmentIndexOf hp
    let hi := ECCENTRICITY_HUE_ANGLES.getD i 0
    let ei := ECCENTRICITY_VALUES.getD i 0
    let Hi := ECCENTRICITY_H_VALUES.getD i 0
    let hiNext := ECCENTRICITY_HUE_ANGLES.getD (i + 1) 0
    let eiNext := ECCENTRICITY_VALUES.getD (i + 1) 0
    let HiNext := ECCENTRICITY_H_VALUES.getD (i + 1) 0
    let t : ℝ := (hp - hi) / ei
    let denominator : ℝ := t + (hiNext - hp) / eiNext
    if denominator = 0 then some ei
    else some ((Hi + (100 * t) / denominator) / 100 *
      ((eiNext * ei) /
        (eiNext * (hp - hi) / (HiNext - Hi) + ei * (hiNext - hp) / (HiNext - Hi))))

/-- Resolve surround condition label to parameters (resolveSurround). -/
def resolveSurround : SurroundCondition → SurroundParameters
  | SurroundCondition.average => SURROUND_AVERAGE
  | SurroundCondition.dim => SURROUND_DIM
  | SurroundCondition.dark => SURROUND_DARK

end

noncomputable section

-- ===========================================================================
-- CIECAM02 module: viewing conditions, forward and inverse transforms
-- ===========================================================================

/-- Precompute viewing condition parameters (makeViewingConditions, body of
the Effect.try thunk).  The source declares a default surround of average;
callers below pass it explicitly. -/
def makeViewingConditions (La Yb : JsNum) (whitePoint : XYZ)
    (surround : SurroundCondition) : ViewingConditions :=
  let surroundParams := resolveSurround surround
  let k := jdiv (some 1) (jadd (jmul (some 5) La) (some 1))
  let k4 := jmul (jmul (jmul k k) k) k
  let Fl := jadd (jmul (jmul (some 0.2) k4) (jmul (some 5) La))
    (jmul (jmul (some 0.1) (jpow (jsub (some 1) k4) (some 2)))
      (jpow (jmul (some 5) La) (some (1 / 3))))
  let n := jdiv Yb whitePoint.Y
  let Nbb := jmul (some 0.725) (jpow (jdiv (some 1) n) (some 0.2))
  let Ncb := Nbb
  let z := jadd (some 1.48) (jsqrt n)
  let D := jmul (some surroundParams.F)
    (jsub (some 1) (jmul (some (1 / 3.6)) (jexp (jdiv (jsub (jneg La) (some 42)) (some 92)))))
  let Dclamp := jmax (some 0) (jmin (some 1) D)
  let whiteRgb := multiplyMatrixVec M_CAT02 ⟨whitePoint.X, whitePoint.Y, whitePoint.Z⟩
  let adaptedWhiteRgc : Vec3 :=
    ⟨jmul (jsub (jadd (jdiv (jmul Dclamp whitePoint.Y) whiteRgb.v0) (some 1)) Dclamp) whiteRgb.v0,
     jmul (jsub (jadd (jdiv (jmul Dclamp whitePoint.Y) whiteRgb.v1) (some 1)) Dclamp) whiteRgb.v1,
     jmul (jsub (jadd (jdiv (jmul Dclamp whitePoint.Y) whiteRgb.v2) (some 1)) Dclamp) whiteRgb.v2⟩
  let whiteRgbHpe := multiplyMatrixVec M_HPE (multiplyMatrixVec M_CAT02_INV adaptedWhiteRgc)
  let whiteRa := nonlinearAdaptation whiteRgbHpe.v0 Fl
  let whiteGa := nonlinearAdaptation whiteRgbHpe.v1 Fl
  let whiteBa := nonlinearAdaptation whiteRgbHpe.v2 Fl
  let Aw := jmul (jsub (jadd (jadd (jmul (some 2) whiteRa) whiteGa)
    (jmul (some (1 / 20)) whiteBa)) (some 0.305)) Nbb
  ⟨La, Yb, surroundParams, k, Fl, n, Nbb, Ncb, z, Dclamp, Aw, adaptedWhiteRgc⟩

/-- The Effect.try wrapper around makeViewingConditions.  The thunk performs
only non-throwing operations, so the catch clause producing the
CIECAM02Error is unreachable and the wrapper always succeeds. -/
def makeViewingConditionsE (La Yb : JsNum) (whitePoint : XYZ)
    (surround : SurroundCondition) : Except CIECAM02Error ViewingConditions :=
  Except.ok (makeViewingConditions La Yb whitePoint surround)

/-- Hue normalization of forward step 5: let h = atan2(b, a) degrees, then
if h is negative add 360.  A NaN hue fails the comparison and stays NaN, so
none maps to none. -/
def normalizeHue : JsNum → JsNum
  | none => none
  | some hv => if hv < 0 then some (hv + 360) else some hv

/-- Forward CIECAM02 transform (forward, body of the Effect.try thunk). -/
def forward (xyz whitePoint : XYZ) (conditions : ViewingConditions) :
    AppearanceCorrelates :=
  let Fl := conditions.Fl
  let Nbb := conditions.Nbb
  let Ncb := conditions.Ncb
  let z := conditions.z
  let Aw := conditions.Aw
  let D := conditions.D
  let surround := conditions.surround
  let rgb := multiplyMatrixVec M_CAT02 ⟨xyz.X, xyz.Y, xyz.Z⟩
  let whiteRgb := multiplyMatrixVec M_CAT02 ⟨whitePoint.X, whitePoint.Y, whitePoint.Z⟩
  let rgc : Vec3 :=
    ⟨jmul (jsub (jadd (jdiv (jmul D whitePoint.Y) whiteRgb.v0) (some 1)) D) rgb.v0,
     jmul (jsub (jadd (jdiv (jmul D whitePoint.Y) whiteRgb.v1) (some 1)) D) rgb.v1,
     jmul (jsub (jadd (jdiv (jmul D whitePoint.Y) whiteRgb.v2) (some 1)) D) rgb.v2⟩
  let rgbHpe := multiplyMatrixVec M_HPE (multiplyMatrixVec M_CAT02_INV rgc)
  let Ra := nonlinearAdaptation rgbHpe.v0 Fl
  let Ga := nonlinearAdaptation rgbHpe.v1 Fl
  let Ba := nonlinearAdaptation rgbHpe.v2 Fl
  let a := jadd (jsub Ra (jdiv (jmul (some 12) Ga) (some 11))) (jdiv Ba (some 11))
  let b := jdiv (jsub (jadd Ra Ga) (jmul (some 2) Ba)) (some 9)
  let h := normalizeHue (jmul (jatan2 b a) (some RAD_TO_DEG))
  let et := eccentricityFactor h
  let A := jmul (jsub (jadd (jadd (jmul (some 2) Ra) Ga)
    (jmul (some (1 / 20)) Ba)) (some 0.305)) Nbb
  let J := jmul (some 100) (jpow (jdiv A Aw) (jmul (some surround.c) z))
  let Q := jmul (jmul (jmul (jdiv (some 4) (some surround.c))
    (jpow (jdiv J (some 100)) (some 0.5))) (jadd Aw (some 4))) (jpow Fl (some 0.25))
  let t := jdiv
    (jmul (jmul (jmul (jmul (some (50000 / 13)) (some surround.Nc)) Ncb) et)
      (jsqrt (jadd (jmul a a) (jmul b b))))
    (jadd (jadd Ra Ga) (jdiv (jmul (some 21) Ba) (some 20)))
  let C := jmul (jmul (jpow t (some 0.9)) (jpow (jdiv J (some 100)) (some 0.5)))
    (jsub (some 1.64) (jpow (some 0.29) conditions.n))
  let M := jmul C (jpow Fl (some 0.25))
  let s := jmul (some 100) (jpow (jdiv M Q) (some 0.5))
  ⟨J, C, h, M, s, Q⟩

/-- The Effect.try wrapper around forward; the thunk cannot throw, so the
wrapper always succeeds. -/
def forwardE (xyz whitePoint : XYZ) (conditions : ViewingConditions) :
    Except CIECAM02Error AppearanceCorrelates :=
  Except.ok (forward xyz whitePoint conditions)

/-- Inverse CIECAM02 transform (inverse, body of the Effect.try thunk). -/
def inverse (correlates : CorrelatesJCh) (whitePoint : XYZ)
    (conditions : ViewingConditions) : XYZ :=
  let J := correlates.J
  let C := correlates.C
  let h := correlates.h
  let Fl := conditions.Fl
  let Nbb := conditions.Nbb
  let Ncb := conditions.Ncb
  let z := conditions.z
  let Aw := conditions.Aw
  let D := conditions.D
  let surround := conditions.surround
  let n := conditions.n
  let A := jmul Aw (jpow (jdiv J (some 100)) (jdiv (some 1) (jmul (some surround.c) z)))
  let t := jpow (jdiv C (jmul (jpow (jdiv J (some 100)) (some 0.5))
    (jsub (some 1.64) (jpow (some 0.29) n)))) (some (1 / 0.9))
  let et := eccentricityFactor h
  let hRad := jmul h (some DEG_TO_RAD)
  let cosH := jcos hRad
  let sinH := jsin hRad
  let p1 := jmul (jmul (jmul (some (50000 / 13)) (some surround.Nc)) Ncb) et
  let p2 := jadd (jdiv A Nbb) (some 0.305)
  let gamma := jdiv (jmul (jmul (some 23) (jadd p2 (some 0.305))) t)
    (jadd (jadd (jmul (some 23) p1) (jmul (jmul (some 11) t) cosH))
      (jmul (jmul (some 108) t) sinH))
  let a := jmul gamma cosH
  let b := jmul gamma sinH
  let Ra := jdiv (jadd (jadd (jmul (some 460) p2) (jmul (some 451) a))
    (jmul (some 288) b)) (some 1403)
  let Ga := jdiv (jsub (jsub (jmul (some 460) p2) (jmul (some 891) a))
    (jmul (some 261) b)) (some 1403)
  let Ba := jdiv (jsub (jsub (jmul (some 460) p2) (jmul (some 220) a))
    (jmul (some 6300) b)) (some 1403)
  let rgbHpe : Vec3 :=
    ⟨inverseNonlinearAdaptation Ra Fl,
     inverseNonlinearAdaptation Ga Fl,
     inverseNonlinearAdaptation Ba Fl⟩
  let rgc := multiplyMatrixVec M_CAT02 (multiplyMatrixVec M_HPE_INV rgbHpe)
  let whiteRgb := multiplyMatrixVec M_CAT02 ⟨whitePoint.X, whitePoint.Y, whitePoint.Z⟩
  let rgb : Vec3 :=
    ⟨jdiv rgc.v0 (jsub (jadd (jdiv (jmul D whitePoint.Y) whiteRgb.v0) (some 1)) D),
     jdiv rgc.v1 (jsub (jadd (jdiv (jmul D whitePoint.Y) whiteRgb.v1) (some 1)) D),
     jdiv rgc.v2 (jsub (jadd (jdiv (jmul D whitePoint.Y) whiteRgb.v2) (some 1)) D)⟩
  let xyzVec := multiplyMatrixVec M_CAT02_INV rgb
  ⟨xyzVec.v0, xyzVec.v1, xyzVec.v2⟩

/-- The Effect.try wrapper around inverse; the thunk cannot throw, so the
wrapper always succeeds. -/
def inverseE (correlates : CorrelatesJCh) (whitePoint : XYZ)
    (conditions : ViewingConditions) : Except CIECAM02Error XYZ :=
  Except.ok (inverse correlates whitePoint conditions)

end

noncomputable section

-- ===========================================================================
-- Pure real-valued extracts of the algebraic stages (used by the claims on
-- the linear algebra of the transforms; each is a transcription of the
-- cited source line on finite values)
-- ===========================================================================

/-- Opponent color dimension a of the forward transform (step 4):
a = Ra - 12 Ga / 11 + Ba / 11. -/
def opponentA (Ra Ga Ba : ℝ) : ℝ := Ra - 12 * Ga / 11 + Ba / 11

/-- Opponent color dimension b of the forward transform (step 4):
b = (Ra + Ga - 2 Ba) / 9. -/
def opponentB (Ra Ga Ba : ℝ) : ℝ := (Ra + Ga - 2 * Ba) / 9

/-- The quantity p2 = A / Nbb + 0.305 of the inverse transform expressed
through the forward definition A = (2 Ra + Ga + Ba / 20 - 0.305) Nbb:
p2 = 2 Ra + Ga + (1 / 20) Ba. -/
def achromaticP2 (Ra Ga Ba : ℝ) : ℝ := 2 * Ra + Ga + (1 / 20) * Ba

/-- Denominator of the chroma quantity t in the forward transform (step 10):
Ra + Ga + 21 Ba / 20. -/
def chromaDenominator (Ra Ga Ba : ℝ) : ℝ := Ra + Ga + 21 * Ba / 20

/-- First row of the linear solve of the inverse transform (step 5). -/
def inverseSolveRa (p2 a b : ℝ) : ℝ := (460 * p2 + 451 * a + 288 * b) / 1403

/-- Second row of the linear solve of the inverse transform (step 5). -/
def inverseSolveGa (p2 a b : ℝ) : ℝ := (460 * p2 - 891 * a - 261 * b) / 1403

/-- Third row of the linear solve of the inverse transform (step 5). -/
def inverseSolveBa (p2 a b : ℝ) : ℝ := (460 * p2 - 220 * a - 6300 * b) / 1403

/-- The gamma recovery of the inverse transform (step 4):
gamma = 23 (p2 + 0.305) t / (23 p1 + 11 t cosH + 108 t sinH). -/
def inverseGamma (p1 p2 t cosH sinH : ℝ) : ℝ :=
  23 * (p2 + 0.305) * t / (23 * p1 + 11 * t * cosH + 108 * t * sinH)

-- ===========================================================================
-- Contrast compensation module (src contrast-compensation, part_002)
-- ===========================================================================

/-- A normalized perceptual color (OKLCHColor from the color schema, an
external collaborator of the core; only its shape is needed here). -/
structure OKLCHColor where
  l : ℝ
  c : ℝ
  h : ℝ
  alpha : ℝ

/-- Error when contrast compensation fails (class
ContrastCompensationError); the cause field is omitted. -/
structure ContrastCompensationError where
  message : String

/-- Error raised by the external gamut-clamp collaborator. -/
structure GamutClampError where
  message : String

/-- The error channel of compensateForBackground:
ContrastCompensationError or CIECAM02Error. -/
abbrev CompensationFailure : Type := ContrastCompensationError ⊕ CIECAM02Error

/-- The collaborators the compensation module consumes but does not
implement (spec section 6): the culori conversions between OKLCH and XYZ65
and the sRGB gamut clamp (clampToGamut lives outside the sampled sources).
They are abstracted as an arbitrary implementation of this interface; the
batch-level theorems below hold for every implementation.  culoriXyz65
returns the 0-1-scale x, y, z fields, or nothing when culori cannot convert
(the source reads the fields with the nullish-coalescing default 0);
culoriOklch receives the 0-1-scale coordinates (possibly non-finite) and
returns an object whose l, c, h, alpha fields may each be missing. -/
structure ExternalCollaborators where
  culoriXyz65 : OKLCHColor → Option (ℝ × ℝ × ℝ)
  culoriOklch : JsNum × JsNum × JsNum → Option (Option ℝ × Option ℝ × Option ℝ × Option ℝ)
  clampToGamut : OKLCHColor → Except GamutClampError OKLCHColor

/-- Adapting field luminance for typical screen viewing
(SCREEN_ADAPTING_LUMINANCE). -/
def SCREEN_ADAPTING_LUMINANCE : ℝ := 64

/-- Convert OKLCH to CIE XYZ on the 0-100 scale (oklchToXyz65): each culori
coordinate, defaulted to 0 when missing, is scaled by 100. -/
def oklchToXyz65 (ext : ExternalCollaborators) (color : OKLCHColor) : XYZ :=
  match ext.culoriXyz65 color with
  | some (x, y, z) => ⟨some (x * 100), some (y * 100), some (z * 100)⟩
  | none => ⟨some (0 * 100), some (0 * 100), some (0 * 100)⟩

/-- Convert CIE XYZ (0-100 scale) back to OKLCH (xyz65ToOklch): the culori
result fields are defaulted (l to 0 then clamped to [0,1], c to 0 then
clamped below by 0, h to 0, alpha to 1). -/
def xyz65ToOklch (ext : ExternalCollaborators) (xyz : XYZ) : OKLCHColor :=
  match ext.culoriOklch (jdiv xyz.X (some 100), jdiv xyz.Y (some 100), jdiv xyz.Z (some 100)) with
  | some (lv, cv, hv, av) =>
      ⟨max 0 (min 1 (lv.getD 0)), max 0 (cv.getD 0), hv.getD 0, av.getD 1⟩
  | none => ⟨max 0 (min 1 0), max 0 0, 0, 1⟩

/-- Sequential fail-fast traversal (Effect.forEach with default options:
elements are processed in order, results are collected in order, and the
first failure aborts the remainder). -/
def forEachE {α β ε : Type} (f : α → Except ε β) : List α → Except ε (List β)
  | [] => Except.ok []
  | x :: xs => do
    let y ← f x
    let ys ← forEachE f xs
    pure (y :: ys)

/-- Compensate a color for simultaneous contrast between two backgrounds
(compensateForBackground).  The source omits the surround argument of
makeViewingConditions, so the declared default average is passed here
explicitly. -/
def compensateForBackground (ext : ExternalCollaborators)
    (color sourceBg targetBg : OKLCHColor) :
    Except CompensationFailure OKLCHColor :=
  let colorXyz := oklchToXyz65 ext color
  let sourceBgXyz := oklchToXyz65 ext sourceBg
  let targetBgXyz := oklchToXyz65 ext targetBg
  let sourceYb := sourceBgXyz.Y
  let targetYb := targetBgXyz.Y
  do
    let sourceConditions ← (makeViewingConditionsE (some SCREEN_ADAPTING_LUMINANCE) sourceYb
      D65_WHITE_POINT SurroundCondition.average).mapError Sum.inr
    let targetConditions ← (makeViewingConditionsE (some SCREEN_ADAPTING_LUMINANCE) targetYb
      D65_WHITE_POINT SurroundCondition.average).mapError Sum.inr
    let appearance ← (forwardE colorXyz D65_WHITE_POINT sourceConditions).mapError Sum.inr
    let compensatedXyz ← (inverseE ⟨appearance.J, appearance.C, appearance.h⟩
      D65_WHITE_POINT targetConditions).mapError Sum.inr
    let compensatedOklch := xyz65ToOklch ext compensatedXyz
    (ext.clampToGamut compensatedOklch).mapError
      (fun _cause => Sum.inl ⟨"Failed to gamut-clamp compensated color"⟩)

/-- Compensate a batch of colors (compensateBatch = Effect.forEach of the
single-color compensation). -/
def compensateBatch (ext : ExternalCollaborators) (colors : List OKLCHColor)
    (sourceBg targetBg : OKLCHColor) :
    Except CompensationFailure (List OKLCHColor) :=
  forEachE (fun color => compensateForBackground ext color sourceBg targetBg) colors

-- ===========================================================================
-- Concrete instances used by counterexamples and witnesses
-- ===========================================================================

/-- True black: X = Y = Z = 0. -/
def blackXYZ : XYZ := ⟨some 0, some 0, some 0⟩

/-- A viewing-conditions record with simple finite fields (Fl = 1, n = 1,
Nbb = Ncb = 1, z = 2, D = 0, Aw = 1, average surround), used to exercise the
forward transform on explicit inputs without transcendental constants. -/
def simpleConditions : ViewingConditions :=
  ⟨some 64, some 20, SURROUND_AVERAGE, some 1, some 1, some 1, some 1, some 1,
   some 2, some 0, some 1, ⟨some 0, some 0, some 0⟩⟩

/-- A viewing-conditions record with Fl = 0 and otherwise simple exact fields
(k = 1, n = 1, Nbb = Ncb = 1, z = 2, D = 0, Aw = 1, average surround).
Fl = 0 is reachable through the factory: at La = 0 every term of the Fl
formula is an exact zero product (k = 1, 5 La = 0), in double precision just
as over the reals, so Fl = 0 exactly.  With Fl = 0 the factor pow(Fl, 0.25)
is exactly 0, hence Q = 0 and M = 0 exactly — again in double precision as
well, since they are products with an exact zero, not cancellations. -/
def flZeroConditions : ViewingConditions :=
  ⟨some 0, some 20, SURROUND_AVERAGE, some 1, some 0, some 1, some 1, some 1,
   some 2, some 0, some 1, ⟨some 0, some 0, some 0⟩⟩

/-- The viewing conditions of the standard screen scenario of the spec:
La = 64, Yb = 20, D65 white point, average surround. -/
def screenConditions20 : ViewingConditions :=
  makeViewingConditions (some 64) (some 20) D65_WHITE_POINT SurroundCondition.average

/-- A white point that the data model admits (non-negative coordinates with
positive Y) whose first CAT02 cone response is exactly zero:
0.7328 * 0 + 0.4296 * 203 - 0.1624 * 537 = 0, both products being the
rational 109011/1250.  The zero survives double precision: the two products
0.4296 * 203 and 0.1624 * 537 also round to the same IEEE double
(87.2088), so the program's own arithmetic produces exactly 0 here too. -/
def degenerateWhitePoint : XYZ := ⟨some 0, some 203, some 537⟩

/-- External collaborators whose gamut clamp always fails; used to exercise
the fail-fast behaviour of the batch. -/
def failingClampCollaborators : ExternalCollaborators :=
  ⟨fun _ => none, fun _ => none, fun _ => Except.error ⟨"out of gamut"⟩⟩

/-- A sample foreground color. -/
def sampleColor : OKLCHColor := ⟨0.57, 0.154, 258.7, 1⟩

/-- A sample background color. -/
def sampleBg : OKLCHColor := ⟨1, 0, 0, 1⟩

end

-- ===========================================================================
-- Evaluation lemmas for the JS number operations
-- ===========================================================================

@[simp] theorem jneg_some (a : ℝ) : jneg (some a) = some (-a) := rfl

@[simp] theorem jneg_none : jneg none = none := rfl

@[simp] theorem jadd_some_some (a b : ℝ) : jadd (some a) (some b) = some (a + b) := rfl

@[simp] theorem jadd_none_left (x : JsNum) : jadd none x = none := by cases x <;> rfl

@[simp] theorem jadd_none_right (x : JsNum) : jadd x none = none := by cases x <;> rfl

@[simp] theorem jsub_some_some (a b : ℝ) : jsub (some a) (some b) = some (a - b) := rfl

@[simp] theorem jsub_none_left (x : JsNum) : jsub none x = none := by cases x <;> rfl

@[simp] theorem jsub_none_right (x : JsNum) : jsub x none = none := by cases x <;> rfl

@[simp] theorem jmul_some_some (a b : ℝ) : jmul (some a) (some b) = some (a * b) := rfl

@[simp] theorem jmul_none_left (x : JsNum) : jmul none x = none := by cases x <;> rfl

@[simp] theorem jmul_none_right (x : JsNum) : jmul x none = none := by cases x <;> rfl

@[simp] theorem jmax_some_some (a b : ℝ) : jmax (some a) (some b) = some (max a b) := rfl

@[simp] theorem jmin_some_some (a b : ℝ) : jmin (some a) (some b) = some (min a b) := rfl

theorem jdiv_some_some (a b : ℝ) (h : b ≠ 0) : jdiv (some a) (some b) = some (a / b) := by
  simp [jdiv, h]

@[simp] theorem jdiv_none_left (x : JsNum) : jdiv none x = none := by cases x <;> rfl

@[simp] theorem jdiv_none_right (x : JsNum) : jdiv x none = none := by cases x <;> rfl

@[simp] theorem jdiv_zero_den (x : JsNum) : jdiv x (some 0) = none := by
  cases x <;> simp [jdiv]

theorem jsqrt_some (a : ℝ) (h : 0 ≤ a) : jsqrt (some a) = some (Real.sqrt a) := by
  simp [jsqrt, not_lt.mpr h]

@[simp] theorem jsqrt_none : jsqrt none = none := rfl

@[simp] theorem jexp_some (a : ℝ) : jexp (some a) = some (Real.exp a) := rfl

@[simp] theorem jexp_none : jexp none = none := rfl

@[simp] theorem jcos_some (a : ℝ) : jcos (some a) = some (Real.cos a) := rfl

@[simp] theorem jsin_some (a : ℝ) : jsin (some a) = some (Real.sin a) := rfl

@[simp] theorem jatan2_some_some (y x : ℝ) : jatan2 (some y) (some x) = some (atan2 y x) := rfl

@[simp] theorem jatan2_none_left (x : JsNum) : jatan2 none x = none := by cases x <;> rfl

@[simp] theorem jatan2_none_right (x : JsNum) : jatan2 x none = none := by cases x <;> rfl

@[simp] theorem jpow_none_exp (x : JsNum) : jpow x none = none := rfl

theorem jpow_zero_exp (x : JsNum) : jpow x (some 0) = some 1 := by simp [jpow]

theorem jpow_none_base (y : ℝ) (hy : y ≠ 0) : jpow none (some y) = none := by
  simp [jpow, hy]

theorem jpow_pos_base (x y : ℝ) (hx : 0 < x) : jpow (some x) (some y) = some (x ^ y) := by
  by_cases hy : y = 0
  · simp [jpow, hy, Real.rpow_zero]
  · simp [jpow, hy, hx.ne', hx]

theorem jpow_zero_base (y : ℝ) (hy : 0 < y) : jpow (some 0) (some y) = some 0 := by
  simp [jpow, hy.ne', hy]

theorem jpow_neg_base (x y : ℝ) (hx : x < 0) (hy : ¬ ∃ n : ℤ, (n : ℝ) = y) :
    jpow (some x) (some y) = none := by
  have hy0 : y ≠ 0 := fun h => hy ⟨0, by simp [h]⟩
  simp [jpow, hy0, hx.ne, not_lt.mpr hx.le, hy]

/-- The exponent 1/3 used by Math.pow(5 La, 1/3) is not an integer. -/
theorem no_int_eq_third : ¬ ∃ n : ℤ, (n : ℝ) = 1 / 3 := by
  rintro ⟨n, hn⟩
  have h3 : ((3 * n : ℤ) : ℝ) = 1 := by push_cast; linarith
  have h4 : (3 * n : ℤ) = 1 := by exact_mod_cast h3
  omega

/-- The matrix-vector product of any constant matrix with the zero vector is
the zero vector. -/
theorem multiplyMatrixVec_zero (m : Matrix3x3) :
    multiplyMatrixVec m ⟨some 0, some 0, some 0⟩ = ⟨some 0, some 0, some 0⟩ := by
  simp [multiplyMatrixVec]

@[simp] theorem nonlinearAdaptation_none (Fl : JsNum) :
    nonlinearAdaptation none Fl = none := rfl

/-- The nonlinear adaptation maps a zero cone excitation to the offset 0.1,
for every finite Fl. -/
theorem nonlinearAdaptation_zero (Fl : ℝ) :
    nonlinearAdaptation (some 0) (some Fl) = some 0.1 := by
  simp only [nonlinearAdaptation, abs_zero, le_refl, if_true, jmul_some_some, mul_zero]
  rw [jdiv_some_some 0 100 (by norm_num), zero_div,
    jpow_zero_base CONE_RESPONSE_EXPONENT (by norm_num [CONE_RESPONSE_EXPONENT])]
  simp only [jmul_some_some, mul_zero, jadd_some_some, zero_add]
  rw [jdiv_some_some _ _ (by norm_num [CONE_RESPONSE_OFFSET])]
  norm_num [POST_ADAPTATION_OFFSET]

-- ===========================================================================
-- Claim C6: the inverse linear solve inverts the forward opponent stage
-- ===========================================================================

/-- Claim C6 (confirmed): for all real Ra, Ga, Ba, with
p2 = 2 Ra + Ga + Ba / 20, a = Ra - 12 Ga / 11 + Ba / 11 and
b = (Ra + Ga - 2 Ba) / 9, the inverse linear solve with coefficients
(460, 451, 288), (460, -891, -261), (460, -220, -6300), each over 1403,
recovers Ra, Ga, Ba exactly. -/
theorem inverse_linear_solve_exact (Ra Ga Ba : ℝ) :
    inverseSolveRa (achromaticP2 Ra Ga Ba) (opponentA Ra Ga Ba) (opponentB Ra Ga Ba) = Ra ∧
    inverseSolveGa (achromaticP2 Ra Ga Ba) (opponentA Ra Ga Ba) (opponentB Ra Ga Ba) = Ga ∧
    inverseSolveBa (achromaticP2 Ra Ga Ba) (opponentA Ra Ga Ba) (opponentB Ra Ga Ba) = Ba := by
  unfold inverseSolveRa inverseSolveGa inverseSolveBa achromaticP2 opponentA opponentB
  refine ⟨?_, ?_, ?_⟩ <;> ring

-- ===========================================================================
-- Claim C1: the gamma stage of the inverse is not a right inverse
-- ===========================================================================

/-- Claim C1 (code_bug support): under the forward definitions of a, b, p2
and t (with cosH = a / r, sinH = b / r for any nonzero r, and
t = p1 r / u with u = Ra + Ga + 21 Ba / 20), the gamma computed by the
inverse equals r (p2 + 0.305) / p2 instead of r: the recovered opponent
coordinates are inflated by the factor (p2 + 0.305) / p2, so the inverse is
not the algebraic right inverse of the forward transform on any chromatic
color.  Replacing the numerator 23 (p2 + 0.305) t by 23 p2 t would give
gamma = r exactly. -/
theorem inverse_gamma_mismatch (Ra Ga Ba p1 r : ℝ) (hr : r ≠ 0)
    (hu : chromaDenominator Ra Ga Ba ≠ 0) (hp1 : p1 ≠ 0)
    (hp2 : 0 < achromaticP2 Ra Ga Ba) :
    inverseGamma p1 (achromaticP2 Ra Ga Ba)
        (p1 * r / chromaDenominator Ra Ga Ba)
        (opponentA Ra Ga Ba / r) (opponentB Ra Ga Ba / r)
      = r * ((achromaticP2 Ra Ga Ba + 0.305) / achromaticP2 Ra Ga Ba) ∧
    inverseGamma p1 (achromaticP2 Ra Ga Ba)
        (p1 * r / chromaDenominator Ra Ga Ba)
        (opponentA Ra Ga Ba / r) (opponentB Ra Ga Ba / r) ≠ r := by
  have key : (23 : ℝ) * chromaDenominator Ra Ga Ba
      + 11 * opponentA Ra Ga Ba + 108 * opponentB Ra Ga Ba
      = 23 * achromaticP2 Ra Ga Ba := by
    unfold chromaDenominator opponentA opponentB achromaticP2
    ring
  have hden : (23 : ℝ) * p1
      + 11 * (p1 * r / chromaDenominator Ra Ga Ba) * (opponentA Ra Ga Ba / r)
      + 108 * (p1 * r / chromaDenominator Ra Ga Ba) * (opponentB Ra Ga Ba / r)
      = 23 * p1 * achromaticP2 Ra Ga Ba / chromaDenominator Ra Ga Ba := by
    field_simp
    linear_combination p1 * chromaDenominator Ra Ga Ba * r * key
  have hmain : inverseGamma p1 (achromaticP2 Ra Ga Ba)
      (p1 * r / chromaDenominator Ra Ga Ba)
      (opponentA Ra Ga Ba / r) (opponentB Ra Ga Ba / r)
      = r * ((achromaticP2 Ra Ga Ba + 0.305) / achromaticP2 Ra Ga Ba) := by
    unfold inverseGamma
    rw [hden]
    have hp2' : achromaticP2 Ra Ga Ba ≠ 0 := hp2.ne'
    field_simp
    ring
  refine ⟨hmain, ?_⟩
  rw [hmain]
  intro hEq
  have h1 : (achromaticP2 Ra Ga Ba + 0.305) / achromaticP2 Ra Ga Ba = 1 := by
    have := mul_left_cancel₀ hr (hEq.trans (mul_one r).symm)
    exact this
  rw [div_eq_one_iff_eq hp2.ne'] at h1
  linarith

/-- Witness for the gamma mismatch at Ra = 2, Ga = 0, Ba = 1, p1 = 1,
r = 1. -/
theorem inverse_gamma_mismatch_witness :
    inverseGamma 1 (achromaticP2 2 0 1) (1 * 1 / chromaDenominator 2 0 1)
      (opponentA 2 0 1 / 1) (opponentB 2 0 1 / 1) ≠ 1 :=
  (inverse_gamma_mismatch 2 0 1 1 1 (by norm_num)
    (by norm_num [chromaDenominator]) (by norm_num)
    (by norm_num [achromaticP2])).2

-- ===========================================================================
-- Claim C2: makeViewingConditions never fails
-- ===========================================================================

/-- Claim C2 (counterexample): with La = -1 (non-positive), the factory does
not fail: the Effect.try thunk throws nothing, so the call succeeds, and the
success value carries a non-finite Fl (Math.pow(-5, 1/3) is NaN). -/
theorem makeViewingConditions_nonpositive_succeeds :
    ((-1 : ℝ) ≤ 0) ∧
    ∃ vc, makeViewingConditionsE (some (-1)) (some 20) D65_WHITE_POINT
        SurroundCondition.average = Except.ok vc ∧ vc.Fl = none := by
  refine ⟨by norm_num,
    makeViewingConditions (some (-1)) (some 20) D65_WHITE_POINT SurroundCondition.average,
    rfl, ?_⟩
  unfold makeViewingConditions
  have h5 : jmul (some (5 : ℝ)) (some (-1 : ℝ)) = some (-5 : ℝ) := by
    simp
  have hpow : jpow (jmul (some (5 : ℝ)) (some (-1 : ℝ))) (some ((1 : ℝ) / 3)) = none := by
    rw [h5, jpow_neg_base (-5) (1 / 3) (by norm_num) no_int_eq_third]
  simp only [hpow, jmul_none_right, jadd_none_right]

/-- Claim C2 (amended): makeViewingConditions never fails: for every input
(including non-positive La, Yb or white-point Y) the Effect.try thunk runs
to completion without throwing and a ViewingConditions value is returned;
degenerate inputs surface as non-finite derived fields, not as a failure. -/
theorem makeViewingConditions_never_fails (La Yb : JsNum) (wp : XYZ)
    (s : SurroundCondition) :
    ∃ vc, makeViewingConditionsE La Yb wp s = Except.ok vc :=
  ⟨_, rfl⟩

-- ===========================================================================
-- Claim C4 (amended part): forward and inverse never fail
-- ===========================================================================

/-- Claim C4 (amended): forward and inverse never return a failure: their
Effect.try thunks perform only non-throwing arithmetic, so both always
succeed; non-finite intermediates propagate into the returned success value
instead of being converted to a CIECAM02Error. -/
theorem forward_inverse_never_fail (xyz wp : XYZ) (cond : ViewingConditions)
    (corr : CorrelatesJCh) :
    (∃ a, forwardE xyz wp cond = Except.ok a) ∧
    ∃ x, inverseE corr wp cond = Except.ok x :=
  ⟨⟨_, rfl⟩, ⟨_, rfl⟩⟩

-- ===========================================================================
-- Conditional evaluation lemmas (side conditions are discharged numerically
-- at concrete inputs)
-- ===========================================================================

theorem jdiv_some_eq_none (a b : ℝ) (h : b = 0) : jdiv (some a) (some b) = none := by
  simp [jdiv, h]

theorem jpow_some_eq_zero {x y : ℝ} (hx : x = 0) (hy : 0 < y) :
    jpow (some x) (some y) = some 0 := by
  rw [hx]; exact jpow_zero_base y hy

theorem jpow_one_base {x : ℝ} (y : ℝ) (hx : x = 1) : jpow (some x) (some y) = some 1 := by
  rw [hx, jpow_pos_base 1 y one_pos, Real.one_rpow]

theorem jsqrt_some_nonneg {a : ℝ} (h : 0 ≤ a) : jsqrt (some a) = some (Real.sqrt a) :=
  jsqrt_some a h

theorem some_real_zero {e : ℝ} (h : e = 0) : (some e : JsNum) = some 0 := by rw [h]

theorem atan2_zero_zero : atan2 0 0 = 0 := by
  unfold atan2
  have h : (⟨0, 0⟩ : ℂ) = 0 := Complex.ext rfl rfl
  rw [h, Complex.arg_zero]

/-- The eccentricity lookup at hue 0 wraps to hp = 360, lands in the fourth
segment and returns the finite value 43538250 / 14569489. -/
theorem eccentricityFactor_zero_eq :
    eccentricityFactor (some 0) = some (43538250 / 14569489) := by
  norm_num [eccentricityFactor, wrapHue, segmentIndexOf, findLastIdx,
    ECCENTRICITY_HUE_ANGLES, ECCENTRICITY_VALUES, ECCENTRICITY_H_VALUES, List.getD]

-- ===========================================================================
-- Claim C7: eccentricity factor far outside the canonical range
-- ===========================================================================

/-- Claim C7 (code_bug support): the table interpolation used for the
eccentricity factor evaluates at hue 200 degrees to exactly
27168000 / 7187761, approximately 3.78, more than three times the canonical
CIE 159:2004 eccentricity (which lies in [0.647, 1.22] for every hue; the
canonical formula is (cos(h rad + 2) + 3.8) / 4).  This inflation enters
chroma through t and makes forward(whitePoint, whitePoint, cond) produce
C well above 3 at the standard screen conditions, against the repository
test that asserts C < 3 there. -/
theorem eccentricityFactor_out_of_range :
    eccentricityFactor (some 200) = some (27168000 / 7187761) ∧
    (3 : ℝ) < 27168000 / 7187761 := by
  constructor
  · norm_num [eccentricityFactor, wrapHue, segmentIndexOf, findLastIdx,
      ECCENTRICITY_HUE_ANGLES, ECCENTRICITY_VALUES, ECCENTRICITY_H_VALUES, List.getD]
  · norm_num

-- ===========================================================================
-- Evaluation of the forward transform at true black under Fl = 0 conditions
-- ===========================================================================

/-- Forward transform at X = Y = Z = 0 under the Fl = 0 conditions: the
brightness Q and the colorfulness M are exactly zero, and the saturation
s = 100 * sqrt(M / Q) is the non-finite result of dividing zero by zero.
Q = 0 and M = 0 arise as multiples of the exact zero
pow(Fl, 0.25) = pow(0, 0.25) = 0, so they are exactly 0 in the program's
double-precision arithmetic as well, where the same 0 / 0 makes s NaN. -/
theorem forward_black_flzero :
    (forward blackXYZ D65_WHITE_POINT flZeroConditions).Q = some 0 ∧
    (forward blackXYZ D65_WHITE_POINT flZeroConditions).M = some 0 ∧
    (forward blackXYZ D65_WHITE_POINT flZeroConditions).s = none := by
  refine ⟨?_, ?_, ?_⟩ <;>
  simp (disch := norm_num) only [forward, blackXYZ, D65_WHITE_POINT, flZeroConditions,
    SURROUND_AVERAGE, multiplyMatrixVec, M_CAT02, M_CAT02_INV, M_HPE,
    nonlinearAdaptation_zero, normalizeHue, eccentricityFactor_zero_eq,
    jadd_some_some, jsub_some_some, jmul_some_some, jatan2_some_some,
    jdiv_some_some, jdiv_some_eq_none, jsqrt_some_nonneg,
    jpow_some_eq_zero, jpow_one_base, jpow_pos_base, jpow_none_base,
    jmul_none_right, jmul_none_left, some_real_zero,
    atan2_zero_zero, Real.sqrt_zero, Real.rpow_one, Real.one_rpow,
    lt_self_iff_false, ite_false, ite_true]

-- ===========================================================================
-- Claim C3: the saturation division is not guarded
-- ===========================================================================

/-- The saturation component of the forward result is definitionally
100 * pow(M / Q, 0.5) of its own M and Q components: there is no branch on
the sign of Q anywhere in its computation. -/
theorem forward_s_eq (xyz wp : XYZ) (cond : ViewingConditions) :
    (forward xyz wp cond).s =
      jmul (some 100) (jpow (jdiv (forward xyz wp cond).M (forward xyz wp cond).Q)
        (some 0.5)) := rfl

/-- Claim C3 (counterexample): at true black under viewing conditions with
Fl = 0 (as produced by La = 0) the brightness correlate Q is exactly 0 and
the colorfulness M is exactly 0 — both as products with the exact zero
pow(Fl, 0.25), so also in double precision — yet the saturation is not
returned as 0: it is the non-finite result of 100 * sqrt(0 / 0). -/
theorem forward_black_saturation_nonfinite :
    (forward blackXYZ D65_WHITE_POINT flZeroConditions).Q = some 0 ∧
    (forward blackXYZ D65_WHITE_POINT flZeroConditions).M = some 0 ∧
    (forward blackXYZ D65_WHITE_POINT flZeroConditions).s = none :=
  forward_black_flzero

/-- Claim C3 (amended): the forward transform computes
s = 100 * pow(M / Q, 0.5) with no guard on Q; whenever Q = 0 (and then
M = 0, as at true black under Fl = 0 conditions) the saturation is
non-finite (NaN in JS), not 0. -/
theorem forward_saturation_unguarded (xyz wp : XYZ) (cond : ViewingConditions)
    (hQ : (forward xyz wp cond).Q = some 0)
    (hM : (forward xyz wp cond).M = some 0) :
    (forward xyz wp cond).s = none := by
  rw [forward_s_eq, hM, hQ, jdiv_some_eq_none 0 0 rfl,
    jpow_none_base 0.5 (by norm_num), jmul_none_right]

/-- Witness for the unguarded saturation at true black under Fl = 0. -/
theorem forward_saturation_unguarded_witness :
    (forward blackXYZ D65_WHITE_POINT flZeroConditions).s = none :=
  forward_saturation_unguarded blackXYZ D65_WHITE_POINT flZeroConditions
    forward_black_flzero.1 forward_black_flzero.2.1

-- ===========================================================================
-- Claim C5: invariants of the produced viewing conditions
-- ===========================================================================

/-- Claim C5 (confirmed): for La > 0, Yb > 0, a white point with finite
positive Y and any of the three surrounds, the produced record satisfies
n = Yb / Y > 0, Nbb = Ncb = 0.725 n^(-0.2), z = 1.48 + sqrt n, and D is the
clamp of F (1 - (1/3.6) exp((-La - 42)/92)) to [0, 1]. -/
theorem makeViewingConditions_invariants (la yb wy : ℝ) (wp : XYZ)
    (s : SurroundCondition) (_hla : 0 < la) (hyb : 0 < yb)
    (hwpY : wp.Y = some wy) (hwy : 0 < wy) :
    (makeViewingConditions (some la) (some yb) wp s).n = some (yb / wy) ∧
    0 < yb / wy ∧
    (makeViewingConditions (some la) (some yb) wp s).Nbb =
      some (0.725 * (yb / wy) ^ (-(0.2 : ℝ))) ∧
    (makeViewingConditions (some la) (some yb) wp s).Ncb =
      (makeViewingConditions (some la) (some yb) wp s).Nbb ∧
    (makeViewingConditions (some la) (some yb) wp s).z =
      some (1.48 + Real.sqrt (yb / wy)) ∧
    ∃ d, (makeViewingConditions (some la) (some yb) wp s).D = some d ∧
      0 ≤ d ∧ d ≤ 1 ∧
      d = max 0 (min 1 ((resolveSurround s).F *
        (1 - 1 / 3.6 * Real.exp ((-la - 42) / 92)))) := by
  have hpos : 0 < yb / wy := div_pos hyb hwy
  have hn : (makeViewingConditions (some la) (some yb) wp s).n = some (yb / wy) := by
    simp only [makeViewingConditions]
    rw [hwpY, jdiv_some_some yb wy hwy.ne']
  have hNbb : (makeViewingConditions (some la) (some yb) wp s).Nbb =
      some (0.725 * (yb / wy) ^ (-(0.2 : ℝ))) := by
    simp only [makeViewingConditions]
    rw [hwpY, jdiv_some_some yb wy hwy.ne',
      jdiv_some_some 1 (yb / wy) hpos.ne',
      jpow_pos_base _ _ (by positivity), jmul_some_some]
    rw [one_div, Real.inv_rpow hpos.le, ← Real.rpow_neg hpos.le]
  have hz : (makeViewingConditions (some la) (some yb) wp s).z =
      some (1.48 + Real.sqrt (yb / wy)) := by
    simp only [makeViewingConditions]
    rw [hwpY, jdiv_some_some yb wy hwy.ne', jsqrt_some_nonneg hpos.le, jadd_some_some]
  have hD : (makeViewingConditions (some la) (some yb) wp s).D =
      some (max 0 (min 1 ((resolveSurround s).F *
        (1 - 1 / 3.6 * Real.exp ((-la - 42) / 92))))) := by
    simp only [makeViewingConditions]
    rw [jneg_some, jsub_some_some, jdiv_some_some _ 92 (by norm_num), jexp_some,
      jmul_some_some, jsub_some_some, jmul_some_some, jmin_some_some, jmax_some_some]
  refine ⟨hn, hpos, hNbb, rfl, hz, ?_⟩
  refine ⟨_, hD, le_max_left 0 _, ?_, rfl⟩
  exact max_le (by norm_num) (min_le_left 1 _)

/-- Witness for the viewing-condition invariants at La = 64, Yb = 20, D65,
average surround. -/
theorem makeViewingConditions_invariants_witness :
    (makeViewingConditions (some 64) (some 20) D65_WHITE_POINT
      SurroundCondition.average).n = some ((20 : ℝ) / 100.0) :=
  (makeViewingConditions_invariants 64 20 100.0 D65_WHITE_POINT
    SurroundCondition.average (by norm_num) (by norm_num) rfl (by norm_num)).1

-- ===========================================================================
-- Claim C8: black input and lightness zero
-- ===========================================================================

/-- The surround of the standard screen conditions is the average preset. -/
theorem screenConditions20_surround :
    screenConditions20.surround = SURROUND_AVERAGE := rfl

/-- The z field of the standard screen conditions. -/
theorem screenConditions20_z :
    screenConditions20.z = some (1.48 + Real.sqrt (20 / 100.0)) := by
  simp only [screenConditions20, makeViewingConditions, D65_WHITE_POINT]
  rw [jdiv_some_some 20 100.0 (by norm_num), jsqrt_some_nonneg (by norm_num), jadd_some_some]

-- ===========================================================================
-- Claim C4 (counterexample): success value containing a non-finite number
-- ===========================================================================

/-- Claim C4 (counterexample): on the input X = NaN, Y = 0, Z = 0 (modelled
as a none component) every intermediate of the forward transform is
non-finite — NaN propagates through each arithmetic step, identically in
double precision and in this model — yet forward does not fail: under the
standard screen conditions it returns a success whose lightness component
is non-finite. -/
theorem forward_success_with_nonfinite :
    ∃ app, forwardE ⟨none, some 0, some 0⟩ D65_WHITE_POINT screenConditions20 =
      Except.ok app ∧ app.J = none := by
  have hcz : (0.69 : ℝ) * (1.48 + Real.sqrt (20 / 100.0)) ≠ 0 := by positivity
  refine ⟨_, rfl, ?_⟩
  simp (disch := norm_num) only [forward,
    screenConditions20_surround, screenConditions20_z, SURROUND_AVERAGE,
    multiplyMatrixVec, M_CAT02, M_CAT02_INV, M_HPE,
    jadd_some_some, jsub_some_some, jmul_some_some,
    jadd_none_left, jadd_none_right, jsub_none_left, jsub_none_right,
    jmul_none_left, jmul_none_right, jdiv_none_left, jdiv_none_right,
    nonlinearAdaptation_none,
    jpow_none_base _ hcz, jmul_none_right]

/-- Claim C8 (counterexample): the data model admits the white point
(0, 203, 537) (non-negative coordinates, positive Y), whose first CAT02
cone response is exactly zero: 0.4296 * 203 = 0.1624 * 537 = 109011/1250,
a cancellation that also holds bit-exactly in double precision (both
products round to the same IEEE double).  Under the viewing conditions
built from La = 64, Yb = 20, D65 the forward transform of true black
against this white point divides by that zero response, and the lightness
is non-finite (NaN in JS) rather than approximately 0. -/
theorem forward_black_degenerate_white :
    ((0 : ℝ) < 203) ∧
    (multiplyMatrixVec M_CAT02 ⟨degenerateWhitePoint.X, degenerateWhitePoint.Y,
      degenerateWhitePoint.Z⟩).v0 = some 0 ∧
    (forward blackXYZ degenerateWhitePoint screenConditions20).J = none := by
  have hcz : (0.69 : ℝ) * (1.48 + Real.sqrt (20 / 100.0)) ≠ 0 := by positivity
  refine ⟨by norm_num, ?_, ?_⟩
  · simp (disch := norm_num) only [multiplyMatrixVec, M_CAT02, degenerateWhitePoint,
      jadd_some_some, jmul_some_some, some_real_zero]
  simp (disch := norm_num) only [forward, blackXYZ, degenerateWhitePoint,
    screenConditions20_surround, screenConditions20_z, SURROUND_AVERAGE,
    multiplyMatrixVec, M_CAT02,
    jadd_some_some, jsub_some_some, jmul_some_some, jdiv_some_some,
    some_real_zero, jdiv_zero_den,
    jadd_none_left, jadd_none_right, jsub_none_left, jsub_none_right,
    jmul_none_left, jmul_none_right, jdiv_none_left, jdiv_none_right,
    nonlinearAdaptation_none, jatan2_none_left, jatan2_none_right,
    jpow_none_base _ hcz, jmul_none_right]

/-- Claim C8 (amended): for every white point whose three CAT02 cone
responses are finite and nonzero, and every viewing-conditions value with
finite Fl, Nbb, D, finite nonzero Aw and positive c * z (all of which hold
for conditions built by the factory from positive inputs and a
nondegenerate white point), the forward transform of true black yields
lightness exactly 0, hence within 1 of 0: the achromatic response A is
exactly 0 at black. -/
theorem forward_black_lightness_zero (wp : XYZ) (cond : ViewingConditions)
    (w0 w1 w2 fl nbb aw zv d : ℝ)
    (h0 : (multiplyMatrixVec M_CAT02 ⟨wp.X, wp.Y, wp.Z⟩).v0 = some w0) (h0n : w0 ≠ 0)
    (h1 : (multiplyMatrixVec M_CAT02 ⟨wp.X, wp.Y, wp.Z⟩).v1 = some w1) (h1n : w1 ≠ 0)
    (h2 : (multiplyMatrixVec M_CAT02 ⟨wp.X, wp.Y, wp.Z⟩).v2 = some w2) (h2n : w2 ≠ 0)
    (hwY : ∃ wy : ℝ, wp.Y = some wy)
    (hFl : cond.Fl = some fl)
    (hNbb : cond.Nbb = some nbb)
    (hAw : cond.Aw = some aw) (hAwn : aw ≠ 0)
    (hD : cond.D = some d)
    (hz : cond.z = some zv) (hcz : 0 < cond.surround.c * zv) :
    ∃ j, (forward blackXYZ wp cond).J = some j ∧ |j - 0| ≤ 1 := by
  obtain ⟨wy, hwY⟩ := hwY
  refine ⟨0, ?_, by norm_num⟩
  simp only [forward, blackXYZ, h0, h1, h2]
  simp (disch := first | assumption | norm_num) only [hwY, hFl, hNbb, hAw, hD, hz,
    multiplyMatrixVec_zero,
    nonlinearAdaptation_zero,
    jadd_some_some, jsub_some_some, jmul_some_some, jdiv_some_some,
    jpow_some_eq_zero, some_real_zero,
    mul_zero, zero_mul, zero_div, add_zero, zero_add]

/-- Witness for the amended black-lightness statement at the D65 white point
under the simple finite conditions. -/
theorem forward_black_lightness_zero_witness :
    ∃ j, (forward blackXYZ D65_WHITE_POINT simpleConditions).J = some j ∧
      |j - 0| ≤ 1 :=
  forward_black_lightness_zero D65_WHITE_POINT simpleConditions
    (0.7328 * 95.047 + 0.4296 * 100.0 + -0.1624 * 108.883) 
    (-0.7036 * 95.047 + 1.6975 * 100.0 + 0.0061 * 108.883)
    (0.0030 * 95.047 + 0.0136 * 100.0 + 0.9834 * 108.883)
    1 1 1 2 0
    rfl (by norm_num) rfl (by norm_num) rfl (by norm_num)
    ⟨100.0, rfl⟩ rfl rfl rfl (by norm_num) rfl rfl
    (by norm_num [simpleConditions, SURROUND_AVERAGE])

-- ===========================================================================
-- Claim C10: totality and bounds of the eccentricity lookup
-- ===========================================================================

theorem findLastIdx_0123 (p : ℕ → Prop) :
    findLastIdx p [0, 1, 2, 3] =
      if p 3 then some 3 else if p 2 then some 2 else if p 1 then some 1
      else if p 0 then some 0 else none := by
  by_cases h3 : p 3 <;> by_cases h2 : p 2 <;> by_cases h1 : p 1 <;> by_cases h0 : p 0 <;>
    simp [findLastIdx, h0, h1, h2, h3]

theorem angles_getD_zero : ECCENTRICITY_HUE_ANGLES.getD 0 0 = 20.14 := rfl

theorem angles_getD_one : ECCENTRICITY_HUE_ANGLES.getD 1 0 = 90 := by
  norm_num [ECCENTRICITY_HUE_ANGLES, List.getD]

theorem angles_getD_two : ECCENTRICITY_HUE_ANGLES.getD 2 0 = 164.25 := rfl

theorem angles_getD_three : ECCENTRICITY_HUE_ANGLES.getD 3 0 = 237.53 := rfl

theorem angles_getD_four : ECCENTRICITY_HUE_ANGLES.getD 4 0 = 380.14 := rfl

theorem segmentIndexOf_eq_three {hp : ℝ} (hge : 237.53 ≤ hp) :
    segmentIndexOf hp = 3 := by
  simp only [segmentIndexOf, findLastIdx_0123, angles_getD_three]
  rw [if_pos hge]
  rfl

theorem segmentIndexOf_eq_two {hp : ℝ} (hge : 164.25 ≤ hp) (hlt : hp < 237.53) :
    segmentIndexOf hp = 2 := by
  simp only [segmentIndexOf, findLastIdx_0123, angles_getD_two, angles_getD_three]
  rw [if_neg (not_le.mpr hlt), if_pos hge]
  rfl

theorem segmentIndexOf_eq_one {hp : ℝ} (hge : 90 ≤ hp) (hlt : hp < 164.25) :
    segmentIndexOf hp = 1 := by
  simp only [segmentIndexOf, findLastIdx_0123, angles_getD_one, angles_getD_two,
    angles_getD_three]
  rw [if_neg (not_le.mpr (by linarith : hp < 237.53)), if_neg (not_le.mpr hlt),
    if_pos hge]
  rfl

theorem segmentIndexOf_eq_zero {hp : ℝ} (hge : 20.14 ≤ hp) (hlt : hp < 90) :
    segmentIndexOf hp = 0 := by
  simp only [segmentIndexOf, findLastIdx_0123, angles_getD_zero, angles_getD_one,
    angles_getD_two, angles_getD_three]
  rw [if_neg (not_le.mpr (by linarith : hp < 237.53)),
    if_neg (not_le.mpr (by linarith : hp < 164.25)), if_neg (not_le.mpr hlt),
    if_pos hge]
  rfl

/-- For any finite hue the eccentricity lookup yields a finite value: both
branches of its final conditional return some. -/
theorem eccentricityFactor_finite (hv : ℝ) :
    ∃ v, eccentricityFactor (some hv) = some v := by
  simp only [eccentricityFactor]
  split_ifs
  · exact ⟨_, rfl⟩
  · exact ⟨_, rfl⟩

theorem values_getD_three : ECCENTRICITY_VALUES.getD 3 0 = 1.2 := rfl

theorem values_getD_four : ECCENTRICITY_VALUES.getD 4 0 = 0.8 := rfl

theorem values_getD_two : ECCENTRICITY_VALUES.getD 2 0 = 1.0 := rfl

theorem values_getD_one : ECCENTRICITY_VALUES.getD 1 0 = 0.7 := rfl

theorem values_getD_zero : ECCENTRICITY_VALUES.getD 0 0 = 0.8 := rfl

/-- Claim C10 (confirmed): for every hue h in [0, 360) the wrapped hue lies
in [20.14, 380.14), the selected segment index is at most 3 so that the
accesses at i and i + 1 stay inside the five-entry tables, the interpolation
denominator is nonzero (so the unguarded branch is evaluated on nonzero
divisors), and the lookup returns a finite value; moreover, whenever the
interpolation denominator is exactly zero, the function returns the
segment eccentricity value ei. -/
theorem eccentricityFactor_total_inbounds (h : ℝ) :
    (0 ≤ h → h < 360 →
      20.14 ≤ wrapHue h ∧ wrapHue h < 380.14 ∧
      segmentIndexOf (wrapHue h) ≤ 3 ∧
      segmentIndexOf (wrapHue h) + 1 < ECCENTRICITY_HUE_ANGLES.length ∧
      segmentIndexOf (wrapHue h) + 1 < ECCENTRICITY_VALUES.length ∧
      segmentIndexOf (wrapHue h) + 1 < ECCENTRICITY_H_VALUES.length ∧
      (wrapHue h - ECCENTRICITY_HUE_ANGLES.getD (segmentIndexOf (wrapHue h)) 0) /
          ECCENTRICITY_VALUES.getD (segmentIndexOf (wrapHue h)) 0 +
        (ECCENTRICITY_HUE_ANGLES.getD (segmentIndexOf (wrapHue h) + 1) 0 - wrapHue h) /
          ECCENTRICITY_VALUES.getD (segmentIndexOf (wrapHue h) + 1) 0 ≠ 0 ∧
      ∃ v, eccentricityFactor (some h) = some v) ∧
    (∀ i0 : ℕ, segmentIndexOf (wrapHue h) = i0 →
      (wrapHue h - ECCENTRICITY_HUE_ANGLES.getD i0 0) / ECCENTRICITY_VALUES.getD i0 0 +
        (ECCENTRICITY_HUE_ANGLES.getD (i0 + 1) 0 - wrapHue h) /
          ECCENTRICITY_VALUES.getD (i0 + 1) 0 = 0 →
      eccentricityFactor (some h) = some (ECCENTRICITY_VALUES.getD i0 0)) := by
  constructor
  · intro hge0 hlt360
    by_cases hw : h < ECCENTRICITY_HUE_ANGLES.getD 0 0
    · have hwrap : wrapHue h = h + 360 := if_pos hw
      rw [angles_getD_zero] at hw
      have hseg : segmentIndexOf (wrapHue h) = 3 := by
        rw [hwrap]; exact segmentIndexOf_eq_three (by linarith)
      rw [hseg, hwrap]
      simp only [show (3 + 1 : ℕ) = 4 from rfl, angles_getD_three, angles_getD_four,
        values_getD_three, values_getD_four]
      refine ⟨by linarith, by linarith, le_refl 3, by norm_num [ECCENTRICITY_HUE_ANGLES],
        by norm_num [ECCENTRICITY_VALUES], by norm_num [ECCENTRICITY_H_VALUES], ?_,
        eccentricityFactor_finite h⟩
      have t1 : (0 : ℝ) ≤ (h + 360 - 237.53) / 1.2 := div_nonneg (by linarith) (by norm_num)
      have t2 : (0 : ℝ) < (380.14 - (h + 360)) / 0.8 := div_pos (by linarith) (by norm_num)
      exact ne_of_gt (by linarith)
    · have hwrap : wrapHue h = h := if_neg hw
      rw [angles_getD_zero] at hw
      have hge : (20.14 : ℝ) ≤ h := not_lt.mp hw
      rw [hwrap]
      by_cases h3 : (237.53 : ℝ) ≤ h
      · have hseg : segmentIndexOf h = 3 := segmentIndexOf_eq_three h3
        rw [hseg]
        simp only [show (3 + 1 : ℕ) = 4 from rfl, angles_getD_three, angles_getD_four,
          values_getD_three, values_getD_four]
        refine ⟨by linarith, by linarith, le_refl 3, by norm_num [ECCENTRICITY_HUE_ANGLES],
          by norm_num [ECCENTRICITY_VALUES], by norm_num [ECCENTRICITY_H_VALUES], ?_,
          eccentricityFactor_finite h⟩
        have t1 : (0 : ℝ) ≤ (h - 237.53) / 1.2 := div_nonneg (by linarith) (by norm_num)
        have t2 : (0 : ℝ) < (380.14 - h) / 0.8 := div_pos (by linarith) (by norm_num)
        exact ne_of_gt (by linarith)
      · by_cases h2 : (164.25 : ℝ) ≤ h
        · have hseg : segmentIndexOf h = 2 := segmentIndexOf_eq_two h2 (by linarith)
          rw [hseg]
          simp only [show (2 + 1 : ℕ) = 3 from rfl, angles_getD_two, angles_getD_three,
            values_getD_two, values_getD_three]
          refine ⟨by linarith, by linarith, by norm_num,
            by norm_num [ECCENTRICITY_HUE_ANGLES], by norm_num [ECCENTRICITY_VALUES],
            by norm_num [ECCENTRICITY_H_VALUES], ?_, eccentricityFactor_finite h⟩
          have t1 : (0 : ℝ) ≤ (h - 164.25) / 1.0 := div_nonneg (by linarith) (by norm_num)
          have t2 : (0 : ℝ) < (237.53 - h) / 1.2 := div_pos (by linarith) (by norm_num)
          exact ne_of_gt (by linarith)
        · by_cases h1 : (90 : ℝ) ≤ h
          · have hseg : segmentIndexOf h = 1 := segmentIndexOf_eq_one h1 (by linarith)
            rw [hseg]
            simp only [show (1 + 1 : ℕ) = 2 from rfl, angles_getD_one, angles_getD_two,
              values_getD_one, values_getD_two]
            refine ⟨by linarith, by linarith, by norm_num,
              by norm_num [ECCENTRICITY_HUE_ANGLES], by norm_num [ECCENTRICITY_VALUES],
              by norm_num [ECCENTRICITY_H_VALUES], ?_, eccentricityFactor_finite h⟩
            have t1 : (0 : ℝ) ≤ (h - 90) / 0.7 := div_nonneg (by linarith) (by norm_num)
            have t2 : (0 : ℝ) < (164.25 - h) / 1.0 := div_pos (by linarith) (by norm_num)
            exact ne_of_gt (by linarith)
          · have hseg : segmentIndexOf h = 0 :=
              segmentIndexOf_eq_zero hge (by linarith)
            rw [hseg]
            simp only [show (0 + 1 : ℕ) = 1 from rfl, angles_getD_zero, angles_getD_one,
              values_getD_zero, values_getD_one]
            refine ⟨by linarith, by linarith, by norm_num,
              by norm_num [ECCENTRICITY_HUE_ANGLES], by norm_num [ECCENTRICITY_VALUES],
              by norm_num [ECCENTRICITY_H_VALUES], ?_, eccentricityFactor_finite h⟩
            have t1 : (0 : ℝ) ≤ (h - 20.14) / 0.8 := div_nonneg (by linarith) (by norm_num)
            have t2 : (0 : ℝ) < (90 - h) / 0.7 := div_pos (by linarith) (by norm_num)
            exact ne_of_gt (by linarith)
  · intro i0 hseg hden
    simp only [eccentricityFactor, hseg]
    rw [if_pos hden]

/-- Witness for the eccentricity totality at hue 0. -/
theorem eccentricityFactor_total_inbounds_witness :
    ∃ v, eccentricityFactor (some (0 : ℝ)) = some v :=
  (((((((eccentricityFactor_total_inbounds 0).1 (by norm_num)
    (by norm_num)).2).2).2).2).2).2.2

-- ===========================================================================
-- Claim C9: batch compensation structure
-- ===========================================================================

theorem forEachE_cons_ok {α β ε : Type} (f : α → Except ε β) (x : α) (xs : List α)
    (out : List β) (h : forEachE f (x :: xs) = Except.ok out) :
    ∃ y ys, f x = Except.ok y ∧ forEachE f xs = Except.ok ys ∧ out = y :: ys := by
  cases hfx : f x with
  | error e =>
    rw [forEachE, hfx] at h
    simp [Bind.bind, Except.bind] at h
  | ok y =>
    cases htail : forEachE f xs with
    | error e =>
      rw [forEachE, hfx, htail] at h
      simp [Bind.bind, Except.bind] at h
    | ok ys =>
      rw [forEachE, hfx, htail] at h
      simp only [Bind.bind, Except.bind, pure, Except.pure, Except.ok.injEq] at h
      exact ⟨y, ys, rfl, rfl, h.symm⟩

theorem forEachE_ok_get {α β ε : Type} (f : α → Except ε β) :
    ∀ (l : List α) (out : List β), forEachE f l = Except.ok out →
      out.length = l.length ∧
      ∀ (i : ℕ) (c : α), l[i]? = some c → ∃ y, out[i]? = some y ∧ f c = Except.ok y := by
  intro l
  induction l with
  | nil =>
    intro out h
    rw [forEachE] at h
    simp only [Except.ok.injEq] at h
    subst h
    exact ⟨rfl, by intro i c hc; simp at hc⟩
  | cons x xs ih =>
    intro out h
    obtain ⟨y, ys, hfx, htail, rfl⟩ := forEachE_cons_ok f x xs out h
    obtain ⟨hlen, hidx⟩ := ih ys htail
    refine ⟨by simp [hlen], ?_⟩
    intro i c hc
    cases i with
    | zero =>
      simp only [List.getElem?_cons_zero, Option.some.injEq] at hc
      exact ⟨y, by simp, hc ▸ hfx⟩
    | succ m =>
      simp only [List.getElem?_cons_succ] at hc ⊢
      exact hidx m c hc

theorem forEachE_fail_fast {α β ε : Type} (f : α → Except ε β) :
    ∀ (l : List α) (i : ℕ) (c : α) (e : ε), l[i]? = some c →
      f c = Except.error e →
      (∀ (j : ℕ) (c0 : α), j < i → l[j]? = some c0 → ∃ y, f c0 = Except.ok y) →
      forEachE f l = Except.error e := by
  intro l
  induction l with
  | nil => intro i c e hc; simp at hc
  | cons x xs ih =>
    intro i c e hc hfc hprev
    cases i with
    | zero =>
      simp only [List.getElem?_cons_zero, Option.some.injEq] at hc
      subst hc
      rw [forEachE, hfc]
      rfl
    | succ m =>
      simp only [List.getElem?_cons_succ] at hc
      obtain ⟨y, hy⟩ := hprev 0 x (Nat.succ_pos m) (by simp)
      have htail : forEachE f xs = Except.error e := by
        refine ih m c e hc hfc ?_
        intro j c0 hj hc0
        exact hprev (j + 1) c0 (by omega) (by simpa using hc0)
      rw [forEachE, hy, htail]
      rfl

/-- Claim C9 (confirmed): for every implementation of the external
collaborators and every pair of backgrounds, the batch compensation is the
sequential fail-fast map of the single-color compensation: the empty input
yields the empty output; a successful batch has the same length as the
input, and its i-th element is exactly the single compensation of the i-th
input color; and if the i-th color is the first to fail, the whole batch
fails with exactly that error. -/
theorem compensateBatch_spec (ext : ExternalCollaborators)
    (sourceBg targetBg : OKLCHColor) :
    (compensateBatch ext [] sourceBg targetBg = Except.ok []) ∧
    (∀ (colors : List OKLCHColor) (out : List OKLCHColor),
      compensateBatch ext colors sourceBg targetBg = Except.ok out →
      out.length = colors.length ∧
      ∀ (i : ℕ) (c : OKLCHColor), colors[i]? = some c →
        ∃ y, out[i]? = some y ∧
          compensateForBackground ext c sourceBg targetBg = Except.ok y) ∧
    (∀ (colors : List OKLCHColor) (i : ℕ) (c : OKLCHColor) (e : CompensationFailure),
      colors[i]? = some c →
      compensateForBackground ext c sourceBg targetBg = Except.error e →
      (∀ (j : ℕ) (c0 : OKLCHColor), j < i → colors[j]? = some c0 →
        ∃ y, compensateForBackground ext c0 sourceBg targetBg = Except.ok y) →
      compensateBatch ext colors sourceBg targetBg = Except.error e) := by
  refine ⟨rfl, ?_, ?_⟩
  · intro colors out h
    exact forEachE_ok_get _ colors out h
  · intro colors i c e hc hfc hprev
    exact forEachE_fail_fast _ colors i c e hc hfc hprev

/-- Witness for the batch specification: with a gamut clamp that always
fails, a one-element batch fails fast with that element's mapped error. -/
theorem compensateBatch_spec_witness :
    compensateBatch failingClampCollaborators [sampleColor] sampleBg sampleBg =
      Except.error (Sum.inl ⟨"Failed to gamut-clamp compensated color"⟩) :=
  (compensateBatch_spec failingClampCollaborators sampleBg sampleBg).2.2
    [sampleColor] 0 sampleColor _ (by simp) rfl
    (by intro j c0 hj hc0; omega)
